/-
Verification of the xmlsec GnuTLS block-cipher transform
(src/src/gnutls/ciphers.c) against its natural-language specification.

The embedding below translates the C source into Lean definitions:
buffers carry their full allocation (`bytes`, whose length is the
capacity) together with a logical `size`, mirroring the C code that
writes into the capacity region beyond the logical size before calling
xmlSecBufferSetSize.  The external libgcrypt CBC provider is modelled
abstractly: a session holds an algorithm, an abstract per-block
encryption and decryption function, and the CBC chaining block; the
provider always writes exactly as many bytes as it reads, as libgcrypt
does for CBC.  Randomness (gcry_randomize) is passed in as an explicit
oracle argument.  Provider calls that can only fail inside libgcrypt
(setiv, encrypt, decrypt) are modelled as succeeding; the error paths
settled here are the ones decided by the logic of ciphers.c itself.
-/
import Mathlib

/-- Algorithms supported by the transform (ciphers.c lines 457-479):
GCRY_CIPHER_3DES, GCRY_CIPHER_AES128, GCRY_CIPHER_AES192,
GCRY_CIPHER_AES256. -/
inductive GcryCipherAlg where
  | des3
  | aes128
  | aes192
  | aes256
deriving DecidableEq

/-- Model of gcry_cipher_get_algo_blklen: 8 bytes for 3DES, 16 for AES. -/
def gcry_cipher_get_algo_blklen : GcryCipherAlg → Nat
  | .des3 => 8
  | .aes128 => 16
  | .aes192 => 16
  | .aes256 => 16

/-- Model of gcry_cipher_get_algo_keylen: 24 bytes for 3DES and AES-192,
16 for AES-128, 32 for AES-256. -/
def gcry_cipher_get_algo_keylen : GcryCipherAlg → Nat
  | .des3 => 24
  | .aes128 => 16
  | .aes192 => 24
  | .aes256 => 32

/-- Pad or truncate a byte list to exactly n bytes (missing bytes read as 0).
Used to model a C routine that always reads and writes exactly one block. -/
def fitBlock (n : Nat) (l : List Nat) : List Nat :=
  l.take n ++ List.replicate (n - l.length) 0

/-- Pointwise XOR of two byte lists (length = the shorter of the two). -/
def natXorList (a b : List Nat) : List Nat :=
  (a.zip b).map (fun p => p.1 ^^^ p.2)

/-- CBC encryption of k blocks of width B: each plaintext block is XORed
with the chaining block and then sent through the abstract block function;
the resulting ciphertext block becomes the new chaining block.  Returns the
ciphertext and the final chaining block. -/
def cbcEnc (B : Nat) (encBlock : List Nat → List Nat) :
    Nat → List Nat → List Nat → List Nat × List Nat
  | 0, chain, _ => ([], chain)
  | k + 1, chain, input =>
      let c := fitBlock B (encBlock (natXorList (fitBlock B input) chain))
      let r := cbcEnc B encBlock k c (input.drop B)
      (c ++ r.1, r.2)

/-- CBC decryption of k blocks of width B: each ciphertext block is sent
through the abstract inverse block function and XORed with the chaining
block; the ciphertext block becomes the new chaining block. -/
def cbcDec (B : Nat) (decBlock : List Nat → List Nat) :
    Nat → List Nat → List Nat → List Nat × List Nat
  | 0, chain, _ => ([], chain)
  | k + 1, chain, input =>
      let cblk := fitBlock B input
      let p := natXorList (fitBlock B (decBlock cblk)) chain
      let r := cbcDec B decBlock k cblk (input.drop B)
      (p ++ r.1, r.2)

/-- Model of an open libgcrypt cipher session (GcryCipherHd): the algorithm
it was opened with, the abstract keyed block permutation and its inverse,
and the CBC chaining block (initially the IV, updated by every
encrypt/decrypt call, as gcry keeps chaining state in the handle). -/
structure GcryCipherHd where
  alg : GcryCipherAlg
  encBlock : List Nat → List Nat
  decBlock : List Nat → List Nat
  iv : List Nat

/-- Model of gcry_cipher_setiv: store (exactly one block of) the given
bytes as the chaining block. -/
def gcry_cipher_setiv (hd : GcryCipherHd) (ivBytes : List Nat) : GcryCipherHd :=
  { hd with iv := fitBlock (gcry_cipher_get_algo_blklen hd.alg) ivBytes }

/-- Model of gcry_cipher_encrypt on a whole number of blocks: CBC-encrypt
input.length / blockLen blocks, returning the bytes written (exactly the
input length when the input is block-aligned) and the updated session. -/
def gcry_cipher_encrypt (hd : GcryCipherHd) (input : List Nat) :
    List Nat × GcryCipherHd :=
  let B := gcry_cipher_get_algo_blklen hd.alg
  let r := cbcEnc B hd.encBlock (input.length / B) hd.iv input
  (r.1, { hd with iv := r.2 })

/-- Model of gcry_cipher_decrypt, the inverse direction of
gcry_cipher_encrypt, with the same chaining discipline. -/
def gcry_cipher_decrypt (hd : GcryCipherHd) (input : List Nat) :
    List Nat × GcryCipherHd :=
  let B := gcry_cipher_get_algo_blklen hd.alg
  let r := cbcDec B hd.decBlock (input.length / B) hd.iv input
  (r.1, { hd with iv := r.2 })

/-- Modelled from the spec: the growable byte buffer (xmlSecBuffer), whose
implementation is not under src/ (spec section 4.A gives its contract).
`bytes` is the whole allocation, so `bytes.length` is the capacity;
`size` is the logical size.  The C code writes into the capacity region
beyond `size` before adjusting the size, so the allocation contents are
tracked in full. -/
structure XmlSecBuffer where
  bytes : List Nat
  size : Nat
deriving DecidableEq

/-- Modelled from the spec: read the logical size of a buffer. -/
def xmlSecBufferGetSize (b : XmlSecBuffer) : Nat :=
  b.size

/-- Modelled from the spec: read the capacity of a buffer. -/
def xmlSecBufferGetMaxSize (b : XmlSecBuffer) : Nat :=
  b.bytes.length

/-- Modelled from the spec: ensure capacity is at least n, preserving the
existing allocation contents; newly allocated bytes are unspecified
(modelled as 0).  Allocation failure is outside the model. -/
def xmlSecBufferSetMaxSize (b : XmlSecBuffer) (n : Nat) : XmlSecBuffer :=
  { b with bytes := b.bytes ++ List.replicate (n - b.bytes.length) 0 }

/-- Modelled from the spec: set the logical size, growing the capacity
first when needed; bytes between the old and new size are whatever the
allocation holds (the callers in ciphers.c write them explicitly). -/
def xmlSecBufferSetSize (b : XmlSecBuffer) (n : Nat) : XmlSecBuffer :=
  let b1 := xmlSecBufferSetMaxSize b n
  { b1 with size := n }

/-- Modelled from the spec: remove n bytes from the head of the buffer,
shifting the tail left; the capacity is unchanged.  Removing at least the
whole logical size just empties the buffer (the spec states that
remove_head of an already-empty buffer is a no-op), matching the upstream
xmlSecBufferRemoveHead which clamps to the current size. -/
def xmlSecBufferRemoveHead (b : XmlSecBuffer) (n : Nat) : XmlSecBuffer :=
  if n < b.size then
    { bytes := b.bytes.drop n ++ List.replicate (min n b.bytes.length) 0,
      size := b.size - n }
  else
    { b with size := 0 }

/-- Write a byte list into the allocation at the given offset, leaving the
logical size unchanged.  Models a C write through the pointer
xmlSecBufferGetData(b) + off into reserved capacity. -/
def bufferWriteAt (b : XmlSecBuffer) (off : Nat) (l : List Nat) : XmlSecBuffer :=
  { b with bytes := b.bytes.take off ++ l ++ b.bytes.drop (off + l.length) }

/-- Error kinds surfaced by the embedded code paths.  `assertFailed`
stands for an xmlSecAssert2 returning -1 (caller-contract violation);
the others match XMLSEC_ERRORS_R_INVALID_DATA and
XMLSEC_ERRORS_R_INVALID_STATUS. -/
inductive XmlSecError where
  | assertFailed
  | invalidData
  | invalidStatus
deriving DecidableEq

/-- One call made to the provider encrypt/decrypt: the offset into the
output buffer where it writes, the capacity declared to the provider
(third argument of gcry_cipher_encrypt/decrypt), and the actual buffer
capacity at the moment of the call. -/
structure ProviderCall where
  off : Nat
  declaredCap : Nat
  bufCap : Nat
deriving DecidableEq

/-- The internal block-cipher context xmlSecGnuTLSBlockCipherCtx
(ciphers.c lines 29-36).  `cipher = none` models the zero (unselected)
cipher id; `cipherCtx = none` models a NULL session handle. -/
structure XmlSecGnuTLSBlockCipherCtx where
  cipher : Option GcryCipherAlg
  cipherCtx : Option GcryCipherHd
  keyInitialized : Bool
  ctxInitialized : Bool

/-- Result of one of the three private phases: the return code, the
updated context and buffers, and the provider encrypt/decrypt calls the
phase performed (recorded for the capacity-safety claims). -/
structure PhaseOut where
  ret : Except XmlSecError Unit
  ctx : XmlSecGnuTLSBlockCipherCtx
  inBuf : XmlSecBuffer
  outBuf : XmlSecBuffer
  calls : List ProviderCall

/-- A phase exit with an error return and the current state. -/
def phaseErr (e : XmlSecError) (ctx : XmlSecGnuTLSBlockCipherCtx)
    (inB outB : XmlSecBuffer) : PhaseOut :=
  { ret := Except.error e, ctx := ctx, inBuf := inB, outBuf := outB, calls := [] }

/-- A phase exit with a success return and the current state. -/
def phaseOk (ctx : XmlSecGnuTLSBlockCipherCtx)
    (inB outB : XmlSecBuffer) : PhaseOut :=
  { ret := Except.ok (), ctx := ctx, inBuf := inB, outBuf := outB, calls := [] }

/-- Embedding of xmlSecGnuTLSBlockCipherCtxInit (ciphers.c lines 56-139).
Encrypt: reserve one block in the output, write a random IV there (the
`ivRand` oracle models gcry_randomize) and hand it to setiv.  Decrypt:
if fewer than blockLen input bytes are available return success without
touching anything; otherwise use the first block as IV and remove it from
the input.  Both completed paths then execute the source line 137
`ctx->ctxInitialized = 0;` literally, leaving the flag false. -/
def xmlSecGnuTLSBlockCipherCtxInit (ctx : XmlSecGnuTLSBlockCipherCtx)
    (inB outB : XmlSecBuffer) (encrypt : Bool) (ivRand : List Nat) : PhaseOut :=
  match ctx.cipher, ctx.cipherCtx with
  | some alg, some hd =>
    if ctx.keyInitialized = false then phaseErr .assertFailed ctx inB outB
    else if ctx.ctxInitialized = true then phaseErr .assertFailed ctx inB outB
    else
      let blockLen := gcry_cipher_get_algo_blklen alg
      if encrypt = true then
        let outSize := xmlSecBufferGetSize outB
        let outB1 := xmlSecBufferSetSize outB (outSize + blockLen)
        let iv := fitBlock blockLen ivRand
        let outB2 := bufferWriteAt outB1 outSize iv
        let hd1 := gcry_cipher_setiv hd iv
        { ret := Except.ok (),
          ctx := { ctx with cipherCtx := some hd1, ctxInitialized := false },
          inBuf := inB, outBuf := outB2, calls := [] }
      else
        if xmlSecBufferGetSize inB < blockLen then
          phaseOk ctx inB outB
        else
          let hd1 := gcry_cipher_setiv hd (inB.bytes.take blockLen)
          let inB1 := xmlSecBufferRemoveHead inB blockLen
          { ret := Except.ok (),
            ctx := { ctx with cipherCtx := some hd1, ctxInitialized := false },
            inBuf := inB1, outBuf := outB, calls := [] }
  | _, _ => phaseErr .assertFailed ctx inB outB

/-- Embedding of xmlSecGnuTLSBlockCipherCtxUpdate (ciphers.c lines
141-237).  With fewer than blockLen input bytes it returns success and
waits.  Otherwise it takes inBlocks whole blocks (all of them when
encrypting, all but the trailing block when decrypting), reserves
capacity for that many bytes plus one spare block, runs the provider over
the taken bytes, sets the output size up by the taken byte count and
removes the taken bytes from the head of the input. -/
def xmlSecGnuTLSBlockCipherCtxUpdate (ctx : XmlSecGnuTLSBlockCipherCtx)
    (inB outB : XmlSecBuffer) (encrypt : Bool) : PhaseOut :=
  match ctx.cipher, ctx.cipherCtx with
  | some alg, some hd =>
    if ctx.ctxInitialized = false then phaseErr .assertFailed ctx inB outB
    else
      let blockLen := gcry_cipher_get_algo_blklen alg
      let inSize := xmlSecBufferGetSize inB
      let outSize := xmlSecBufferGetSize outB
      if inSize < blockLen then
        phaseOk ctx inB outB
      else
        let inBlocks := if encrypt = true then inSize / blockLen
                        else (inSize - 1) / blockLen
        let inTake := inBlocks * blockLen
        let outB1 := xmlSecBufferSetMaxSize outB (outSize + inTake + blockLen)
        let call : ProviderCall :=
          { off := outSize, declaredCap := inTake + blockLen,
            bufCap := xmlSecBufferGetMaxSize outB1 }
        let pr := if encrypt = true then gcry_cipher_encrypt hd (inB.bytes.take inTake)
                  else gcry_cipher_decrypt hd (inB.bytes.take inTake)
        let outB2 := bufferWriteAt outB1 outSize pr.1
        let outB3 := xmlSecBufferSetSize outB2 (outSize + inTake)
        let inB1 := xmlSecBufferRemoveHead inB inTake
        { ret := Except.ok (),
          ctx := { ctx with cipherCtx := some pr.2 },
          inBuf := inB1, outBuf := outB3, calls := [call] }
  | _, _ => phaseErr .assertFailed ctx inB outB

/-- The shared tail of xmlSecGnuTLSBlockCipherCtxFinal (ciphers.c lines
299-396): reserve two blocks of output capacity, run the provider over the
final inSize bytes writing at offset outSize, on decrypt read the padding
length from the last written plaintext byte (the C reads
outBuf[blockLen-1], which holds exactly that byte) and reject it when it
exceeds inSize, compute the emitted length, and then perform the
set-size/remove-head pair twice, exactly as the duplicated source block
does. -/
def xmlSecGnuTLSBlockCipherFinalTail (ctx : XmlSecGnuTLSBlockCipherCtx)
    (hd : GcryCipherHd) (inB outB : XmlSecBuffer) (encrypt : Bool)
    (blockLen inSize outSize : Nat) : PhaseOut :=
  let outB1 := xmlSecBufferSetMaxSize outB (outSize + 2 * blockLen)
  let call : ProviderCall :=
    { off := outSize, declaredCap := inSize + blockLen,
      bufCap := xmlSecBufferGetMaxSize outB1 }
  let pr := if encrypt = true then gcry_cipher_encrypt hd (inB.bytes.take inSize)
            else gcry_cipher_decrypt hd (inB.bytes.take inSize)
  let outB2 := bufferWriteAt outB1 outSize pr.1
  let pad := pr.1.getD (blockLen - 1) 0
  if encrypt = false ∧ inSize < pad then
    { ret := Except.error .invalidData,
      ctx := { ctx with cipherCtx := some pr.2 },
      inBuf := inB, outBuf := outB2, calls := [call] }
  else
    let outLen := if encrypt = true then inSize else inSize - pad
    let outB3 := xmlSecBufferSetSize outB2 (outSize + outLen)
    let inB1 := xmlSecBufferRemoveHead inB inSize
    let outB4 := xmlSecBufferSetSize outB3 (outSize + outLen)
    let inB2 := xmlSecBufferRemoveHead inB1 inSize
    { ret := Except.ok (),
      ctx := { ctx with cipherCtx := some pr.2 },
      inBuf := inB2, outBuf := outB4, calls := [call] }

/-- Embedding of xmlSecGnuTLSBlockCipherCtxFinal (ciphers.c lines
239-397).  Encrypt: assert the input holds less than one block, reserve a
block of input capacity, fill the gap with random bytes (the padRand
oracle models gcry_randomize), write the padding length blockLen - inSize
into the last byte of the block and continue with inSize = blockLen (the
source updates only its local inSize variable, not the logical buffer
size).  Decrypt: fail with InvalidData unless exactly one block is
present.  Both continue in xmlSecGnuTLSBlockCipherFinalTail. -/
def xmlSecGnuTLSBlockCipherCtxFinal (ctx : XmlSecGnuTLSBlockCipherCtx)
    (inB outB : XmlSecBuffer) (encrypt : Bool) (padRand : List Nat) : PhaseOut :=
  match ctx.cipher, ctx.cipherCtx with
  | some alg, some hd =>
    if ctx.ctxInitialized = false then phaseErr .assertFailed ctx inB outB
    else
      let blockLen := gcry_cipher_get_algo_blklen alg
      let inSize := xmlSecBufferGetSize inB
      let outSize := xmlSecBufferGetSize outB
      if encrypt = true then
        if blockLen ≤ inSize then phaseErr .assertFailed ctx inB outB
        else
          let inB1 := xmlSecBufferSetMaxSize inB blockLen
          let inB2 := if inSize + 1 < blockLen then
                        bufferWriteAt inB1 inSize
                          (fitBlock (blockLen - inSize - 1) padRand)
                      else inB1
          let inB3 := bufferWriteAt inB2 (blockLen - 1) [blockLen - inSize]
          xmlSecGnuTLSBlockCipherFinalTail ctx hd inB3 outB encrypt
            blockLen blockLen outSize
      else
        if inSize ≠ blockLen then phaseErr .invalidData ctx inB outB
        else
          xmlSecGnuTLSBlockCipherFinalTail ctx hd inB outB encrypt
            blockLen inSize outSize
  | _, _ => phaseErr .assertFailed ctx inB outB

/-- Transform status value xmlSecTransformStatusNone. -/
def xmlSecTransformStatusNone : Nat := 0

/-- Transform status value xmlSecTransformStatusWorking. -/
def xmlSecTransformStatusWorking : Nat := 1

/-- Transform status value xmlSecTransformStatusFinished. -/
def xmlSecTransformStatusFinished : Nat := 2

/-- The part of the driver-owned xmlSecTransform object the block-cipher
Execute method touches: the encode flag (direction), the status field,
the two driver-owned buffers, and the cipher context stored after the
transform header. -/
structure XmlSecTransform where
  encode : Bool
  status : Nat
  inBuf : XmlSecBuffer
  outBuf : XmlSecBuffer
  ctx : XmlSecGnuTLSBlockCipherCtx

/-- Result of one Execute call: the return code together with the state of
the transform when the call returns (the C mutates the object in place and
returns an int, so failing calls also leave a state behind). -/
structure ExecOut where
  ret : Except XmlSecError Unit
  t : XmlSecTransform

/-- The status promotion at the top of Execute (ciphers.c lines 608-610):
a transform in status None is moved to Working before the status dispatch. -/
def execPromote (t : XmlSecTransform) : XmlSecTransform :=
  if t.status = xmlSecTransformStatusNone then
    { t with status := xmlSecTransformStatusWorking }
  else t

/-- Copy a phase result back into the transform (the phases mutate the
context and the two buffers through pointers). -/
def applyPhase (t : XmlSecTransform) (r : PhaseOut) : XmlSecTransform :=
  { t with ctx := r.ctx, inBuf := r.inBuf, outBuf := r.outBuf }

/-- Dispatch on the return code of the CtxInit phase result (ciphers.c
lines 617-633): propagate a failure, otherwise fail with InvalidData
("not enough data to initialize transform") when the context is still
uninitialized on a last call. -/
def execInitStep2 (t : XmlSecTransform) (last : Bool) (r : PhaseOut) : ExecOut :=
  match r.ret with
  | Except.error e => { ret := Except.error e, t := applyPhase t r }
  | Except.ok _ =>
    if (applyPhase t r).ctx.ctxInitialized = false ∧ last = true then
      { ret := Except.error XmlSecError.invalidData, t := applyPhase t r }
    else
      { ret := Except.ok (), t := applyPhase t r }

/-- Execute, first part of the Working branch (ciphers.c lines 613-633):
run CtxInit when the context is not initialized, then dispatch on its
return code. -/
def execInitStep (t : XmlSecTransform) (last : Bool) (ivRand : List Nat) : ExecOut :=
  execInitStep2 t last
    (if t.ctx.ctxInitialized = false then
       xmlSecGnuTLSBlockCipherCtxInit t.ctx t.inBuf t.outBuf t.encode ivRand
     else phaseOk t.ctx t.inBuf t.outBuf)

/-- Dispatch on the return code of the CtxUpdate phase result (ciphers.c
lines 638-645). -/
def execUpdateStep2 (t : XmlSecTransform) (r : PhaseOut) : ExecOut :=
  match r.ret with
  | Except.error e => { ret := Except.error e, t := applyPhase t r }
  | Except.ok _ => { ret := Except.ok (), t := applyPhase t r }

/-- Execute, second part of the Working branch (ciphers.c lines 634-646):
run CtxUpdate when the context is initialized. -/
def execUpdateStep (t : XmlSecTransform) : ExecOut :=
  execUpdateStep2 t
    (if t.ctx.ctxInitialized = true then
       xmlSecGnuTLSBlockCipherCtxUpdate t.ctx t.inBuf t.outBuf t.encode
     else phaseOk t.ctx t.inBuf t.outBuf)

/-- Dispatch on the return code of the CtxFinal phase result (ciphers.c
lines 649-660): propagate a failure, otherwise set the status to
Finished. -/
def execFinalStep2 (t : XmlSecTransform) (r : PhaseOut) : ExecOut :=
  match r.ret with
  | Except.error e => { ret := Except.error e, t := applyPhase t r }
  | Except.ok _ =>
    { ret := Except.ok (),
      t := { applyPhase t r with status := xmlSecTransformStatusFinished } }

/-- Execute, third part of the Working branch (ciphers.c lines 648-661):
on a last call run CtxFinal and dispatch on its return code. -/
def execFinalStep (t : XmlSecTransform) (last : Bool) (padRand : List Nat) : ExecOut :=
  if last = true then
    execFinalStep2 t (xmlSecGnuTLSBlockCipherCtxFinal t.ctx t.inBuf t.outBuf t.encode padRand)
  else
    { ret := Except.ok (), t := t }

/-- The tail of the Working branch after a successful Update step. -/
def execWorking3 (o : ExecOut) (last : Bool) (padRand : List Nat) : ExecOut :=
  match o.ret with
  | Except.error e => { ret := Except.error e, t := o.t }
  | Except.ok _ => execFinalStep o.t last padRand

/-- The tail of the Working branch after the Init step. -/
def execWorking2 (o : ExecOut) (last : Bool) (padRand : List Nat) : ExecOut :=
  match o.ret with
  | Except.error e => { ret := Except.error e, t := o.t }
  | Except.ok _ => execWorking3 (execUpdateStep o.t) last padRand

/-- The whole Working branch of Execute: Init step, then Update step, then
Final step, stopping at the first failure. -/
def execWorking (t : XmlSecTransform) (last : Bool) (ivRand padRand : List Nat) : ExecOut :=
  execWorking2 (execInitStep t last ivRand) last padRand

/-- Embedding of xmlSecGnuTLSBlockCipherExecute (ciphers.c lines 592-678).
After the None-to-Working promotion: in status Working run the three
steps; in status Finished assert the input buffer is empty and return
success; the following None branch of the source (lines 665-667) is
unreachable because the promotion just removed status None, and is kept
here as written; any other status fails with InvalidStatus.  The ivRand
and padRand oracles model the two gcry_randomize calls reachable from
this entry point. -/
def xmlSecGnuTLSBlockCipherExecute (t : XmlSecTransform) (last : Bool)
    (ivRand padRand : List Nat) : ExecOut :=
  let t1 := execPromote t
  if t1.status = xmlSecTransformStatusWorking then
    execWorking t1 last ivRand padRand
  else if t1.status = xmlSecTransformStatusFinished then
    if xmlSecBufferGetSize t1.inBuf = 0 then { ret := Except.ok (), t := t1 }
    else { ret := Except.error XmlSecError.assertFailed, t := t1 }
  else if t1.status = xmlSecTransformStatusNone then
    if last = false then { ret := Except.ok (), t := t1 }
    else { ret := Except.error XmlSecError.assertFailed, t := t1 }
  else
    { ret := Except.error XmlSecError.invalidStatus, t := t1 }

/-- Test fixture: a session whose abstract block permutation is the
identity, with an all-zero chaining block, for a given algorithm. -/
def idHd (alg : GcryCipherAlg) : GcryCipherHd :=
  { alg := alg, encBlock := fun b => b, decBlock := fun b => b,
    iv := List.replicate (gcry_cipher_get_algo_blklen alg) 0 }

/-- Test fixture: a context as it stands right after Initialize and
SetKey succeeded: cipher selected, session open, key loaded, framing not
yet initialized. -/
def readyCtx (alg : GcryCipherAlg) : XmlSecGnuTLSBlockCipherCtx :=
  { cipher := some alg, cipherCtx := some (idHd alg),
    keyInitialized := true, ctxInitialized := true }

/-- Test fixture: a ready context with the framing flag still false,
which per line 137 of the source is also the state after CtxInit. -/
def freshCtx (alg : GcryCipherAlg) : XmlSecGnuTLSBlockCipherCtx :=
  { readyCtx alg with ctxInitialized := false }

/-- Test fixture: a buffer exactly filled by the given bytes. -/
def bufOfList (l : List Nat) : XmlSecBuffer :=
  { bytes := l, size := l.length }

/-- Test fixture: an empty buffer. -/
def emptyBuf : XmlSecBuffer :=
  bufOfList []

/-- Test fixture for the round-trip claim: an encrypting AES-128
transform about to receive the empty plaintext. -/
def c1Transform : XmlSecTransform :=
  { encode := true, status := xmlSecTransformStatusNone,
    inBuf := emptyBuf, outBuf := emptyBuf, ctx := freshCtx .aes128 }

/-- Test fixture: a decrypting AES-128 transform in status None holding
three bytes of input (less than one block). -/
def c3Transform : XmlSecTransform :=
  { encode := false, status := xmlSecTransformStatusNone,
    inBuf := bufOfList [9, 9, 9], outBuf := emptyBuf, ctx := freshCtx .aes128 }

/-- Test fixture: a session whose block decryption always returns a block
ending in the padding length 3. -/
def padThreeHd : GcryCipherHd :=
  { alg := .aes128, encBlock := fun b => b,
    decBlock := fun _ => List.replicate 15 0 ++ [3],
    iv := List.replicate 16 0 }

/-- Test fixture: an initialized context over padThreeHd. -/
def padThreeCtx : XmlSecGnuTLSBlockCipherCtx :=
  { cipher := some .aes128, cipherCtx := some padThreeHd,
    keyInitialized := true, ctxInitialized := true }

/-- Test fixture: a session whose block decryption always returns the
all-zero block, so the decrypted padding length is 0. -/
def padZeroHd : GcryCipherHd :=
  { alg := .aes128, encBlock := fun b => b,
    decBlock := fun _ => List.replicate 16 0,
    iv := List.replicate 16 0 }

/-- Test fixture: an initialized context over padZeroHd. -/
def padZeroCtx : XmlSecGnuTLSBlockCipherCtx :=
  { cipher := some .aes128, cipherCtx := some padZeroHd,
    keyInitialized := true, ctxInitialized := true }

/-- Test fixture: a decrypting transform in status None with two input
bytes, used to exhibit the None-to-Working move of a failing call. -/
def c6Transform : XmlSecTransform :=
  { encode := false, status := xmlSecTransformStatusNone,
    inBuf := bufOfList [4, 4], outBuf := emptyBuf, ctx := freshCtx .aes128 }

/-- Test fixture: the same failing shape entered in status Working. -/
def c6WorkingTransform : XmlSecTransform :=
  { encode := false, status := xmlSecTransformStatusWorking,
    inBuf := bufOfList [4, 4], outBuf := emptyBuf, ctx := freshCtx .aes128 }

/-- Test fixture for the length-law claim: an encrypting 3DES transform
holding a 5-byte plaintext. -/
def c7Transform : XmlSecTransform :=
  { encode := true, status := xmlSecTransformStatusNone,
    inBuf := bufOfList [1, 2, 3, 4, 5], outBuf := emptyBuf, ctx := freshCtx .des3 }

/-- Test fixture: a decrypting 3DES transform in status Working with an
empty input buffer. -/
def c9Transform : XmlSecTransform :=
  { encode := false, status := xmlSecTransformStatusWorking,
    inBuf := emptyBuf, outBuf := emptyBuf, ctx := freshCtx .des3 }

/-- Setting the max size never changes the logical size. -/
@[simp]
theorem size_setMaxSize (b : XmlSecBuffer) (n : Nat) :
    (xmlSecBufferSetMaxSize b n).size = b.size :=
  rfl

/-- Setting the size sets exactly the logical size. -/
@[simp]
theorem size_setSize (b : XmlSecBuffer) (n : Nat) :
    (xmlSecBufferSetSize b n).size = n :=
  rfl

/-- Writing into the allocation never changes the logical size. -/
@[simp]
theorem size_writeAt (b : XmlSecBuffer) (off : Nat) (l : List Nat) :
    (bufferWriteAt b off l).size = b.size :=
  rfl

/-- Removing n head bytes shrinks the logical size by n (to zero when
fewer than n bytes are present). -/
@[simp]
theorem size_removeHead (b : XmlSecBuffer) (n : Nat) :
    (xmlSecBufferRemoveHead b n).size = b.size - n := by
  unfold xmlSecBufferRemoveHead
  split
  · rfl
  · show 0 = b.size - n
    omega

/-- The capacity after setting the max size to n is the larger of the old
capacity and n. -/
@[simp]
theorem maxSize_setMaxSize (b : XmlSecBuffer) (n : Nat) :
    xmlSecBufferGetMaxSize (xmlSecBufferSetMaxSize b n) =
      max (xmlSecBufferGetMaxSize b) n := by
  unfold xmlSecBufferGetMaxSize xmlSecBufferSetMaxSize
  simp only [List.length_append, List.length_replicate]
  omega

/-- Every supported algorithm has a positive block length. -/
theorem blklen_pos (alg : GcryCipherAlg) : 0 < gcry_cipher_get_algo_blklen alg := by
  cases alg <;> decide

/-- Copying a phase result into a transform changes neither the status nor
the encode flag. -/
@[simp]
theorem applyPhase_status (t : XmlSecTransform) (r : PhaseOut) :
    (applyPhase t r).status = t.status :=
  rfl

/-- The status promotion leaves every field but the status unchanged. -/
@[simp]
theorem execPromote_ctx (t : XmlSecTransform) : (execPromote t).ctx = t.ctx := by
  unfold execPromote
  split <;> rfl

/-- The status promotion leaves the input buffer unchanged. -/
@[simp]
theorem execPromote_inBuf (t : XmlSecTransform) : (execPromote t).inBuf = t.inBuf := by
  unfold execPromote
  split <;> rfl

/-- The status promotion leaves the output buffer unchanged. -/
@[simp]
theorem execPromote_outBuf (t : XmlSecTransform) : (execPromote t).outBuf = t.outBuf := by
  unfold execPromote
  split <;> rfl

/-- The status promotion leaves the direction unchanged. -/
@[simp]
theorem execPromote_encode (t : XmlSecTransform) : (execPromote t).encode = t.encode := by
  unfold execPromote
  split <;> rfl

/-- A transform in status None or Working is in status Working after the
promotion. -/
theorem execPromote_status_working (t : XmlSecTransform)
    (h : t.status = xmlSecTransformStatusNone ∨ t.status = xmlSecTransformStatusWorking) :
    (execPromote t).status = xmlSecTransformStatusWorking := by
  unfold execPromote
  rcases h with h | h <;> simp [h, xmlSecTransformStatusNone, xmlSecTransformStatusWorking]


/-- On every path of CtxInit, a context whose framing flag is false comes
out with the framing flag still false: the error paths leave the context
untouched, the waiting path leaves it untouched, and the completed paths
execute the source line 137 and store 0. -/
theorem ctxInit_flag_false (ctx : XmlSecGnuTLSBlockCipherCtx)
    (inB outB : XmlSecBuffer) (encrypt : Bool) (ivRand : List Nat)
    (h : ctx.ctxInitialized = false) :
    (xmlSecGnuTLSBlockCipherCtxInit ctx inB outB encrypt ivRand).ctx.ctxInitialized = false := by
  unfold xmlSecGnuTLSBlockCipherCtxInit
  cases hc : ctx.cipher with
  | none => simp [phaseErr, h]
  | some alg =>
    cases hh : ctx.cipherCtx with
    | none => simp [phaseErr, h]
    | some hd =>
      split_ifs <;> try simp_all [phaseErr, phaseOk]
      all_goals split_ifs <;> simp_all [phaseErr, phaseOk]

/-- Dispatching on a CtxInit result never changes the status field. -/
theorem execInitStep2_status (t : XmlSecTransform) (last : Bool) (r : PhaseOut) :
    (execInitStep2 t last r).t.status = t.status := by
  unfold execInitStep2
  split
  · rfl
  · split <;> rfl

/-- The Init step of Execute never changes the status field. -/
theorem execInitStep_status (t : XmlSecTransform) (last : Bool) (ivRand : List Nat) :
    (execInitStep t last ivRand).t.status = t.status := by
  unfold execInitStep
  exact execInitStep2_status t last _

/-- Dispatching on a CtxInit result whose context flag is false yields a
transform whose context flag is false. -/
theorem execInitStep2_flag_false (t : XmlSecTransform) (last : Bool) (r : PhaseOut)
    (h : r.ctx.ctxInitialized = false) :
    (execInitStep2 t last r).t.ctx.ctxInitialized = false := by
  unfold execInitStep2
  split
  · exact h
  · split <;> exact h

/-- The Init step of Execute keeps a false framing flag false. -/
theorem execInitStep_flag_false (t : XmlSecTransform) (last : Bool) (ivRand : List Nat)
    (h : t.ctx.ctxInitialized = false) :
    (execInitStep t last ivRand).t.ctx.ctxInitialized = false := by
  unfold execInitStep
  apply execInitStep2_flag_false
  split
  all_goals
    first
      | exact ctxInit_flag_false t.ctx t.inBuf t.outBuf t.encode ivRand h
      | exact h

/-- Dispatching, on a last call, on a CtxInit result whose context flag is
false never returns success. -/
theorem execInitStep2_last_not_ok (t : XmlSecTransform) (r : PhaseOut)
    (h : r.ctx.ctxInitialized = false) :
    (execInitStep2 t true r).ret ≠ Except.ok () := by
  unfold execInitStep2
  split
  · simp
  · have hcond : (applyPhase t r).ctx.ctxInitialized = false ∧ (true = true) := ⟨h, rfl⟩
    rw [if_pos hcond]
    simp

/-- With an uninitialized context, the Init step of a last call never
returns success: either CtxInit itself fails, or the flag is still false
afterwards (line 137) and the not-enough-data branch fires. -/
theorem execInitStep_last_not_ok (t : XmlSecTransform) (ivRand : List Nat)
    (h : t.ctx.ctxInitialized = false) :
    (execInitStep t true ivRand).ret ≠ Except.ok () := by
  unfold execInitStep
  apply execInitStep2_last_not_ok
  split
  all_goals
    first
      | exact ctxInit_flag_false t.ctx t.inBuf t.outBuf t.encode ivRand h
      | exact h

/-- Dispatching on a CtxUpdate result never changes the status field. -/
theorem execUpdateStep2_status (t : XmlSecTransform) (r : PhaseOut) :
    (execUpdateStep2 t r).t.status = t.status := by
  unfold execUpdateStep2
  split <;> rfl

/-- The Update step of Execute never changes the status field. -/
theorem execUpdateStep_status (t : XmlSecTransform) :
    (execUpdateStep t).t.status = t.status := by
  unfold execUpdateStep
  exact execUpdateStep2_status t _

/-- With a false framing flag the Update step is skipped (ciphers.c line
634 guards CtxUpdate behind ctxInitialized being nonzero). -/
theorem execUpdateStep_skip (t : XmlSecTransform)
    (h : t.ctx.ctxInitialized = false) :
    execUpdateStep t = { ret := Except.ok (), t := t } := by
  unfold execUpdateStep
  rw [if_neg (by simp [h])]
  rfl

/-- With last = false the Final step does nothing. -/
theorem execFinalStep_not_last (t : XmlSecTransform) (padRand : List Nat) :
    execFinalStep t false padRand = { ret := Except.ok (), t := t } :=
  rfl

/-- A failing dispatch on a CtxFinal result leaves the status unchanged. -/
theorem execFinalStep2_err_status (t : XmlSecTransform) (r : PhaseOut)
    (e : XmlSecError) (h : (execFinalStep2 t r).ret = Except.error e) :
    (execFinalStep2 t r).t.status = t.status := by
  rcases hr : r.ret with e2 | u
  · have h2 : execFinalStep2 t r = { ret := Except.error e2, t := applyPhase t r } := by
      unfold execFinalStep2
      rw [hr]
    rw [h2]
    rfl
  · have h2 : execFinalStep2 t r =
        { ret := Except.ok (),
          t := { applyPhase t r with status := xmlSecTransformStatusFinished } } := by
      unfold execFinalStep2
      rw [hr]
    rw [h2] at h
    simp at h

/-- On a last call the Final step is the CtxFinal dispatch. -/
theorem execFinalStep_last (t : XmlSecTransform) (padRand : List Nat) :
    execFinalStep t true padRand =
      execFinalStep2 t (xmlSecGnuTLSBlockCipherCtxFinal t.ctx t.inBuf t.outBuf t.encode padRand) :=
  rfl

/-- A failing Final step leaves the status unchanged. -/
theorem execFinalStep_err_status (t : XmlSecTransform) (last : Bool) (padRand : List Nat)
    (e : XmlSecError) (h : (execFinalStep t last padRand).ret = Except.error e) :
    (execFinalStep t last padRand).t.status = t.status := by
  rcases hl : last
  · subst hl
    rw [execFinalStep_not_last] at h
    simp at h
  · subst hl
    rw [execFinalStep_last] at h ⊢
    exact execFinalStep2_err_status t _ e h

/-- A failing tail after the Update step leaves the status of its input
transform unchanged. -/
theorem execWorking3_err_status (o : ExecOut) (last : Bool) (padRand : List Nat)
    (e : XmlSecError) (h : (execWorking3 o last padRand).ret = Except.error e) :
    (execWorking3 o last padRand).t.status = o.t.status := by
  rcases ho : o.ret with e1 | u
  · have h2 : execWorking3 o last padRand = { ret := Except.error e1, t := o.t } := by
      unfold execWorking3
      rw [ho]
    rw [h2]
  · have h2 : execWorking3 o last padRand = execFinalStep o.t last padRand := by
      unfold execWorking3
      rw [ho]
    rw [h2] at h ⊢
    exact execFinalStep_err_status o.t last padRand e h

/-- A failing tail after the Init step leaves the status of its input
transform unchanged. -/
theorem execWorking2_err_status (o : ExecOut) (last : Bool) (padRand : List Nat)
    (e : XmlSecError) (h : (execWorking2 o last padRand).ret = Except.error e) :
    (execWorking2 o last padRand).t.status = o.t.status := by
  rcases ho : o.ret with e1 | u
  · have h2 : execWorking2 o last padRand = { ret := Except.error e1, t := o.t } := by
      unfold execWorking2
      rw [ho]
    rw [h2]
  · have h2 : execWorking2 o last padRand =
        execWorking3 (execUpdateStep o.t) last padRand := by
      unfold execWorking2
      rw [ho]
    rw [h2] at h ⊢
    exact (execWorking3_err_status _ last padRand e h).trans (execUpdateStep_status o.t)

/-- A failing Working branch leaves the status unchanged: the status is
only ever written by the promotion before it and by a successful Final
step. -/
theorem execWorking_err_status (t : XmlSecTransform) (last : Bool) (ivRand padRand : List Nat)
    (e : XmlSecError) (h : (execWorking t last ivRand padRand).ret = Except.error e) :
    (execWorking t last ivRand padRand).t.status = t.status := by
  unfold execWorking at h ⊢
  exact (execWorking2_err_status _ last padRand e h).trans (execInitStep_status t last ivRand)

/-- A successful Working branch on a transform whose framing flag is false
keeps the flag false and the status unchanged: the Init step cannot raise
the flag (line 137), so a last call cannot get past the not-enough-data
check, the Update step is skipped, and the Final step does nothing. -/
theorem execWorking_ok_props (t : XmlSecTransform) (last : Bool) (ivRand padRand : List Nat)
    (hflag : t.ctx.ctxInitialized = false)
    (hok : (execWorking t last ivRand padRand).ret = Except.ok ()) :
    (execWorking t last ivRand padRand).t.ctx.ctxInitialized = false ∧
    (execWorking t last ivRand padRand).t.status = t.status := by
  rcases hl : last
  · subst hl
    rcases ho : (execInitStep t false ivRand).ret with e1 | u
    · have h2 : execWorking t false ivRand padRand =
          { ret := Except.error e1, t := (execInitStep t false ivRand).t } := by
        unfold execWorking execWorking2
        rw [ho]
      rw [h2] at hok
      simp at hok
    · have hfl : (execInitStep t false ivRand).t.ctx.ctxInitialized = false :=
        execInitStep_flag_false t false ivRand hflag
      have hskip := execUpdateStep_skip (execInitStep t false ivRand).t hfl
      have h2 : execWorking t false ivRand padRand =
          { ret := Except.ok (), t := (execInitStep t false ivRand).t } := by
        unfold execWorking execWorking2
        rw [ho]
        unfold execWorking3
        rw [hskip]
        rfl
      rw [h2]
      exact ⟨hfl, execInitStep_status t false ivRand⟩
  · subst hl
    exfalso
    rcases ho : (execInitStep t true ivRand).ret with e1 | u
    · have h2 : execWorking t true ivRand padRand =
          { ret := Except.error e1, t := (execInitStep t true ivRand).t } := by
        unfold execWorking execWorking2
        rw [ho]
      rw [h2] at hok
      simp at hok
    · cases u
      exact execInitStep_last_not_ok t ivRand hflag ho

/-- When the promoted transform is in status Working, Execute is exactly
the Working branch. -/
theorem exec_eq_working (t : XmlSecTransform) (last : Bool) (ivRand padRand : List Nat)
    (h : (execPromote t).status = xmlSecTransformStatusWorking) :
    xmlSecGnuTLSBlockCipherExecute t last ivRand padRand =
      execWorking (execPromote t) last ivRand padRand := by
  unfold xmlSecGnuTLSBlockCipherExecute
  rw [if_pos h]

/-- C1: the round-trip claim fails on the code.  Evaluating Execute at the
failing input (encrypting AES-128 transform, empty plaintext, last =
true) returns InvalidData with only the 16 IV bytes in the output: CtxInit
stores 0 into ctxInitialized (ciphers.c line 137), the not-enough-data
check then fires on every last call, so encryption never completes and
there is no ciphertext whose decryption could be compared with P. -/
theorem roundTrip_pipeline_fails_eval :
    (xmlSecGnuTLSBlockCipherExecute c1Transform true (List.replicate 16 0) []).ret =
      Except.error XmlSecError.invalidData ∧
    (xmlSecGnuTLSBlockCipherExecute c1Transform true (List.replicate 16 0) []).t.outBuf.size = 16 :=
  ⟨rfl, rfl⟩

/-- C2: after a successful Init phase the framing flag is still false, in
the encrypt direction and in the decrypt direction with a full block of
input: line 137 of the source stores 0 instead of 1.  The claim says the
flag is true after these successful Init calls. -/
theorem ctxInit_flag_eval :
    ((xmlSecGnuTLSBlockCipherCtxInit (freshCtx .aes128) emptyBuf emptyBuf true
        (List.replicate 16 0)).ret = Except.ok () ∧
     (xmlSecGnuTLSBlockCipherCtxInit (freshCtx .aes128) emptyBuf emptyBuf true
        (List.replicate 16 0)).ctx.ctxInitialized = false) ∧
    ((xmlSecGnuTLSBlockCipherCtxInit (freshCtx .aes128) (bufOfList (List.replicate 16 1))
        emptyBuf false []).ret = Except.ok () ∧
     (xmlSecGnuTLSBlockCipherCtxInit (freshCtx .aes128) (bufOfList (List.replicate 16 1))
        emptyBuf false []).ctx.ctxInitialized = false) :=
  ⟨⟨rfl, rfl⟩, ⟨rfl, rfl⟩⟩

/-- C7: the length law fails on the code.  For the 5-byte plaintext on
3DES-CBC the claim predicts a complete ciphertext of
8 + 8 * ceil((5 + 1) / 8) = 16 bytes, but the Execute pipeline fails with
InvalidData after emitting only the 8 IV bytes, again because line 137
leaves ctxInitialized at 0 and Update/Final are never reached. -/
theorem length_law_pipeline_fails_eval :
    (xmlSecGnuTLSBlockCipherExecute c7Transform true (List.replicate 8 0) []).ret =
      Except.error XmlSecError.invalidData ∧
    (xmlSecGnuTLSBlockCipherExecute c7Transform true (List.replicate 8 0) []).t.outBuf.size = 8 ∧
    8 + 8 * ((5 + 1 + (8 - 1)) / 8) = 16 :=
  ⟨rfl, rfl, rfl⟩

/-- C5 counterexample: a decrypted final block whose last byte is 0 is
accepted by CtxFinal, which then emits all 16 block bytes; the claim
says a padding length of 0 fails with InvalidData.  The source check
(ciphers.c line 337) only rejects pad values larger than the block. -/
theorem ctxFinal_zero_padding_accepted :
    ((gcry_cipher_decrypt padZeroHd ((bufOfList (List.replicate 16 7)).bytes.take 16)).1.getD
        15 0 = 0) ∧
    (xmlSecGnuTLSBlockCipherCtxFinal padZeroCtx (bufOfList (List.replicate 16 7)) emptyBuf
        false []).ret = Except.ok () ∧
    (xmlSecGnuTLSBlockCipherCtxFinal padZeroCtx (bufOfList (List.replicate 16 7)) emptyBuf
        false []).outBuf.size = 16 :=
  ⟨rfl, rfl, rfl⟩

/-- C6 counterexample: a failing Execute call that enters with status None
leaves the transform in status Working, not in its prior status: the
promotion at ciphers.c lines 608-610 happens before any failure can be
detected.  The claim says the status after every failing call equals the
status before it. -/
theorem execute_failure_changes_status :
    (xmlSecGnuTLSBlockCipherExecute c6Transform true [] []).ret =
      Except.error XmlSecError.invalidData ∧
    c6Transform.status = xmlSecTransformStatusNone ∧
    (xmlSecGnuTLSBlockCipherExecute c6Transform true [] []).t.status =
      xmlSecTransformStatusWorking ∧
    xmlSecTransformStatusWorking ≠ xmlSecTransformStatusNone :=
  ⟨rfl, rfl, rfl, by decide⟩

/-- C4: for an initialized context and at least one block of input, the
Update phase succeeds, processes exactly inSize / B whole blocks when
encrypting and (inSize - 1) / B when decrypting, growing the output size
and shrinking the input size by exactly that many bytes; in the decrypt
direction at least one byte (the held-back trailing block) always remains
in the input. -/
theorem ctxUpdate_block_accounting (ctx : XmlSecGnuTLSBlockCipherCtx)
    (inB outB : XmlSecBuffer) (encrypt : Bool) (alg : GcryCipherAlg) (hd : GcryCipherHd)
    (hc : ctx.cipher = some alg) (hh : ctx.cipherCtx = some hd)
    (hflag : ctx.ctxInitialized = true)
    (hsz : gcry_cipher_get_algo_blklen alg ≤ inB.size) :
    (xmlSecGnuTLSBlockCipherCtxUpdate ctx inB outB encrypt).ret = Except.ok () ∧
    (xmlSecGnuTLSBlockCipherCtxUpdate ctx inB outB encrypt).outBuf.size =
      outB.size +
        (if encrypt = true then inB.size / gcry_cipher_get_algo_blklen alg
         else (inB.size - 1) / gcry_cipher_get_algo_blklen alg) *
          gcry_cipher_get_algo_blklen alg ∧
    (xmlSecGnuTLSBlockCipherCtxUpdate ctx inB outB encrypt).inBuf.size =
      inB.size -
        (if encrypt = true then inB.size / gcry_cipher_get_algo_blklen alg
         else (inB.size - 1) / gcry_cipher_get_algo_blklen alg) *
          gcry_cipher_get_algo_blklen alg ∧
    (encrypt = false → 1 ≤ (xmlSecGnuTLSBlockCipherCtxUpdate ctx inB outB encrypt).inBuf.size) := by
  have hB := blklen_pos alg
  have hnlt : ¬ (xmlSecBufferGetSize inB < gcry_cipher_get_algo_blklen alg) := by
    simp only [xmlSecBufferGetSize]
    omega
  unfold xmlSecGnuTLSBlockCipherCtxUpdate
  rw [hc, hh]
  simp only [hflag, Bool.true_eq_false, if_false, hnlt, if_neg hnlt]
  refine ⟨?_, ?_, ?_, ?_⟩
  · simp
  · simp [xmlSecBufferGetSize]
  · simp [xmlSecBufferGetSize]
  · intro he
    subst he
    simp only [Bool.false_eq_true, if_false, size_removeHead, xmlSecBufferGetSize]
    have hle : (inB.size - 1) / gcry_cipher_get_algo_blklen alg *
        gcry_cipher_get_algo_blklen alg ≤ inB.size - 1 :=
      Nat.div_mul_le_self _ _
    omega

/-- C5 (amended): in the decrypt direction, for an initialized context,
the Final phase fails with InvalidData when the input size differs from
the block length B; otherwise it decrypts the single block and reads the
padding length p from its last plaintext byte, fails with InvalidData
when p exceeds B, and for every accepted p (including the value 0, which
the source accepts) appends exactly B - p plaintext bytes to the output
and empties the input. -/
theorem ctxFinal_decrypt_padding (ctx : XmlSecGnuTLSBlockCipherCtx)
    (inB outB : XmlSecBuffer) (padRand : List Nat) (alg : GcryCipherAlg) (hd : GcryCipherHd)
    (hc : ctx.cipher = some alg) (hh : ctx.cipherCtx = some hd)
    (hflag : ctx.ctxInitialized = true) :
    (inB.size ≠ gcry_cipher_get_algo_blklen alg →
      (xmlSecGnuTLSBlockCipherCtxFinal ctx inB outB false padRand).ret =
        Except.error XmlSecError.invalidData) ∧
    (inB.size = gcry_cipher_get_algo_blklen alg →
      (gcry_cipher_get_algo_blklen alg <
          (gcry_cipher_decrypt hd
              (inB.bytes.take (gcry_cipher_get_algo_blklen alg))).1.getD
            (gcry_cipher_get_algo_blklen alg - 1) 0 →
        (xmlSecGnuTLSBlockCipherCtxFinal ctx inB outB false padRand).ret =
          Except.error XmlSecError.invalidData) ∧
      ((gcry_cipher_decrypt hd
            (inB.bytes.take (gcry_cipher_get_algo_blklen alg))).1.getD
          (gcry_cipher_get_algo_blklen alg - 1) 0 ≤ gcry_cipher_get_algo_blklen alg →
        (xmlSecGnuTLSBlockCipherCtxFinal ctx inB outB false padRand).ret = Except.ok () ∧
        (xmlSecGnuTLSBlockCipherCtxFinal ctx inB outB false padRand).outBuf.size =
          outB.size +
            (gcry_cipher_get_algo_blklen alg -
              (gcry_cipher_decrypt hd
                  (inB.bytes.take (gcry_cipher_get_algo_blklen alg))).1.getD
                (gcry_cipher_get_algo_blklen alg - 1) 0) ∧
        (xmlSecGnuTLSBlockCipherCtxFinal ctx inB outB false padRand).inBuf.size = 0)) := by
  unfold xmlSecGnuTLSBlockCipherCtxFinal
  rw [hc, hh]
  simp only [hflag, Bool.true_eq_false, if_false, Bool.false_eq_true]
  constructor
  · intro hne
    rw [if_pos (by simpa [xmlSecBufferGetSize] using hne)]
    rfl
  · intro hsize
    rw [if_neg (by simp [xmlSecBufferGetSize, hsize])]
    unfold xmlSecGnuTLSBlockCipherFinalTail
    simp only [xmlSecBufferGetSize, hsize, Bool.false_eq_true, if_false]
    constructor
    · intro hbig
      rw [if_pos ⟨trivial, hbig⟩]
    · intro hsmall
      rw [if_neg (fun hcon => absurd hcon.2 (Nat.not_lt.mpr hsmall))]
      refine ⟨rfl, by simp, ?_⟩
      simp only [size_removeHead, hsize]
      omega

/-- When CtxInit returns success without consuming anything (the decrypt
wait path), a last call through the Working branch fails with InvalidData
and leaves the transform unchanged. -/
theorem execWorking_stall_last (t : XmlSecTransform) (ivRand padRand : List Nat)
    (hflag : t.ctx.ctxInitialized = false)
    (hinit : xmlSecGnuTLSBlockCipherCtxInit t.ctx t.inBuf t.outBuf t.encode ivRand =
      phaseOk t.ctx t.inBuf t.outBuf) :
    execWorking t true ivRand padRand =
      { ret := Except.error XmlSecError.invalidData, t := t } := by
  have hstep : execInitStep t true ivRand =
      { ret := Except.error XmlSecError.invalidData, t := t } := by
    unfold execInitStep
    rw [if_pos hflag, hinit]
    unfold execInitStep2
    simp [phaseOk, applyPhase, hflag]
  unfold execWorking
  rw [hstep]
  rfl

/-- When CtxInit returns success without consuming anything, a non-last
call through the Working branch is a successful no-op: the Update step is
skipped because the flag is still false and the Final step does not run. -/
theorem execWorking_stall_notlast (t : XmlSecTransform) (ivRand padRand : List Nat)
    (hflag : t.ctx.ctxInitialized = false)
    (hinit : xmlSecGnuTLSBlockCipherCtxInit t.ctx t.inBuf t.outBuf t.encode ivRand =
      phaseOk t.ctx t.inBuf t.outBuf) :
    execWorking t false ivRand padRand = { ret := Except.ok (), t := t } := by
  have hstep : execInitStep t false ivRand = { ret := Except.ok (), t := t } := by
    unfold execInitStep
    rw [if_pos hflag, hinit]
    unfold execInitStep2
    simp [phaseOk, applyPhase]
  unfold execWorking
  rw [hstep]
  unfold execWorking2
  show execWorking3 (execUpdateStep t) false padRand = { ret := Except.ok (), t := t }
  rw [execUpdateStep_skip t hflag]
  rfl

/-- With an uninitialized context the Working branch of a last call never
returns success. -/
theorem execWorking_last_not_ok (t : XmlSecTransform) (ivRand padRand : List Nat)
    (hflag : t.ctx.ctxInitialized = false) :
    (execWorking t true ivRand padRand).ret ≠ Except.ok () := by
  intro hok
  rcases ho : (execInitStep t true ivRand).ret with e1 | u
  · have h2 : execWorking t true ivRand padRand =
        { ret := Except.error e1, t := (execInitStep t true ivRand).t } := by
      unfold execWorking execWorking2
      rw [ho]
    rw [h2] at hok
    simp at hok
  · cases u
    exact execInitStep_last_not_ok t ivRand hflag ho

/-- C3: a decrypting transform whose framing is not yet initialized and
whose input holds fewer than blockLen bytes fails with InvalidData when
Execute is called with last = true ("not enough data to initialize
transform"), while the same call with last = false returns success. -/
theorem execute_decrypt_short_input (t : XmlSecTransform) (ivRand padRand : List Nat)
    (alg : GcryCipherAlg) (hd : GcryCipherHd)
    (hc : t.ctx.cipher = some alg) (hh : t.ctx.cipherCtx = some hd)
    (hkey : t.ctx.keyInitialized = true) (hflag : t.ctx.ctxInitialized = false)
    (hdir : t.encode = false)
    (hsz : t.inBuf.size < gcry_cipher_get_algo_blklen alg)
    (hst : t.status = xmlSecTransformStatusNone ∨ t.status = xmlSecTransformStatusWorking) :
    (xmlSecGnuTLSBlockCipherExecute t true ivRand padRand).ret =
      Except.error XmlSecError.invalidData ∧
    (xmlSecGnuTLSBlockCipherExecute t false ivRand padRand).ret = Except.ok () := by
  have hp := execPromote_status_working t hst
  have hctx : (execPromote t).ctx = t.ctx := execPromote_ctx t
  have hflag1 : (execPromote t).ctx.ctxInitialized = false := by
    rw [hctx]
    exact hflag
  have hinit : xmlSecGnuTLSBlockCipherCtxInit (execPromote t).ctx (execPromote t).inBuf
      (execPromote t).outBuf (execPromote t).encode ivRand =
      phaseOk (execPromote t).ctx (execPromote t).inBuf (execPromote t).outBuf := by
    rw [hctx, execPromote_inBuf, execPromote_outBuf, execPromote_encode]
    unfold xmlSecGnuTLSBlockCipherCtxInit
    rw [hc, hh]
    simp only [hkey, hflag, hdir, Bool.true_eq_false, Bool.false_eq_true, if_false]
    rw [if_pos (by simpa [xmlSecBufferGetSize] using hsz)]
  constructor
  · rw [exec_eq_working t true ivRand padRand hp]
    rw [execWorking_stall_last (execPromote t) ivRand padRand hflag1 hinit]
  · rw [exec_eq_working t false ivRand padRand hp]
    rw [execWorking_stall_notlast (execPromote t) ivRand padRand hflag1 hinit]

/-- C6 (amended): a failing Execute call leaves the status unchanged,
except that a call entered in status None has already been promoted to
Working (ciphers.c lines 608-610) before the failure; in particular a
failing call never sets the status to Finished. -/
theorem execute_failure_status (t : XmlSecTransform) (last : Bool)
    (ivRand padRand : List Nat) (e : XmlSecError)
    (h : (xmlSecGnuTLSBlockCipherExecute t last ivRand padRand).ret = Except.error e) :
    (xmlSecGnuTLSBlockCipherExecute t last ivRand padRand).t.status = t.status ∨
      (t.status = xmlSecTransformStatusNone ∧
       (xmlSecGnuTLSBlockCipherExecute t last ivRand padRand).t.status =
         xmlSecTransformStatusWorking) := by
  by_cases h0 : t.status = xmlSecTransformStatusNone
  · right
    refine ⟨h0, ?_⟩
    have hp : (execPromote t).status = xmlSecTransformStatusWorking :=
      execPromote_status_working t (Or.inl h0)
    rw [exec_eq_working t last ivRand padRand hp] at h ⊢
    rw [execWorking_err_status _ last ivRand padRand e h]
    exact hp
  · left
    have hpe : execPromote t = t := by
      unfold execPromote
      rw [if_neg h0]
    unfold xmlSecGnuTLSBlockCipherExecute at h ⊢
    rw [hpe] at h ⊢
    by_cases h1 : t.status = xmlSecTransformStatusWorking
    · rw [if_pos h1] at h ⊢
      exact execWorking_err_status t last ivRand padRand e h
    · rw [if_neg h1] at h ⊢
      by_cases h2 : t.status = xmlSecTransformStatusFinished
      · rw [if_pos h2] at h ⊢
        split <;> rfl
      · rw [if_neg h2] at h ⊢
        rw [if_neg h0] at h ⊢

/-- C9: because CtxInit only ever stores 0 into ctxInitialized (ciphers.c
line 137) and nothing else writes the flag, every Execute call with
last = true on a transform whose flag is false (as every reachable
transform is, the flag starting false and staying false) returns failure;
and every successful call keeps the flag false and keeps the status away
from Finished, so the Update and Final phases are never entered and the
transform never finishes. -/
theorem execute_never_finishes :
    (∀ (t : XmlSecTransform) (ivRand padRand : List Nat),
        t.ctx.ctxInitialized = false →
        (t.status = xmlSecTransformStatusNone ∨ t.status = xmlSecTransformStatusWorking) →
        (xmlSecGnuTLSBlockCipherExecute t true ivRand padRand).ret ≠ Except.ok ()) ∧
    (∀ (t : XmlSecTransform) (last : Bool) (ivRand padRand : List Nat),
        t.ctx.ctxInitialized = false →
        t.status ≠ xmlSecTransformStatusFinished →
        (xmlSecGnuTLSBlockCipherExecute t last ivRand padRand).ret = Except.ok () →
        (xmlSecGnuTLSBlockCipherExecute t last ivRand padRand).t.ctx.ctxInitialized = false ∧
        (xmlSecGnuTLSBlockCipherExecute t last ivRand padRand).t.status ≠
          xmlSecTransformStatusFinished) := by
  constructor
  · intro t ivRand padRand hflag hst hok
    have hp := execPromote_status_working t hst
    rw [exec_eq_working t true ivRand padRand hp] at hok
    have hflag1 : (execPromote t).ctx.ctxInitialized = false := by
      rw [execPromote_ctx]
      exact hflag
    exact execWorking_last_not_ok (execPromote t) ivRand padRand hflag1 hok
  · intro t last ivRand padRand hflag hnf hok
    by_cases hw : (execPromote t).status = xmlSecTransformStatusWorking
    · rw [exec_eq_working t last ivRand padRand hw] at hok ⊢
      have hflag1 : (execPromote t).ctx.ctxInitialized = false := by
        rw [execPromote_ctx]
        exact hflag
      obtain ⟨hf, hs⟩ := execWorking_ok_props (execPromote t) last ivRand padRand hflag1 hok
      refine ⟨hf, ?_⟩
      rw [hs, hw]
      decide
    · have h0 : t.status ≠ xmlSecTransformStatusNone := by
        intro h0
        exact hw (execPromote_status_working t (Or.inl h0))
      have hpe : execPromote t = t := by
        unfold execPromote
        rw [if_neg h0]
      rw [hpe] at hw
      unfold xmlSecGnuTLSBlockCipherExecute at hok ⊢
      rw [hpe] at hok ⊢
      rw [if_neg hw] at hok ⊢
      by_cases h2 : t.status = xmlSecTransformStatusFinished
      · exact absurd h2 hnf
      · rw [if_neg h2] at hok ⊢
        rw [if_neg h0] at hok ⊢
        simp at hok

/-- C8: the duplicated set-size/remove-head block at the end of CtxFinal
(ciphers.c lines 374-394, repeating lines 351-371) is idempotent on the
valid state the first pair leaves behind: a second set_size to the same
value returns the same buffer, a second remove_head of inSize bytes from
the emptied input is a no-op, the input ends empty, and the output ends
at exactly the once-set size. -/
theorem final_duplicate_block_idempotent (outB inB : XmlSecBuffer) (n m : Nat)
    (h : inB.size ≤ m) :
    xmlSecBufferSetSize (xmlSecBufferSetSize outB n) n = xmlSecBufferSetSize outB n ∧
    xmlSecBufferRemoveHead (xmlSecBufferRemoveHead inB m) m =
      xmlSecBufferRemoveHead inB m ∧
    (xmlSecBufferRemoveHead inB m).size = 0 ∧
    (xmlSecBufferSetSize outB n).size = n := by
  obtain ⟨obs, osz⟩ := outB
  obtain ⟨ibs, isz⟩ := inB
  have h1 : ¬ (m < isz) := by
    have h2 : isz ≤ m := h
    omega
  refine ⟨?_, ?_, ?_, rfl⟩
  · simp only [xmlSecBufferSetSize, xmlSecBufferSetMaxSize, XmlSecBuffer.mk.injEq,
      List.length_append, List.length_replicate, and_true]
    have hz : n - (obs.length + (n - obs.length)) = 0 := by omega
    rw [hz]
    simp
  · simp [xmlSecBufferRemoveHead, h1]
  · simp [xmlSecBufferRemoveHead, h1]

/-- Every provider call recorded by the shared Final tail satisfies the
capacity bound when the block it is given is at most one block long. -/
theorem finTail_call_bound (ctx : XmlSecGnuTLSBlockCipherCtx) (hd : GcryCipherHd)
    (inB outB : XmlSecBuffer) (encrypt : Bool) (blockLen inSize outSize : Nat)
    (c : ProviderCall) (hin : inSize ≤ blockLen)
    (hc : c ∈ (xmlSecGnuTLSBlockCipherFinalTail ctx hd inB outB encrypt
        blockLen inSize outSize).calls) :
    c.off + c.declaredCap ≤ c.bufCap := by
  have hcalls : (xmlSecGnuTLSBlockCipherFinalTail ctx hd inB outB encrypt
      blockLen inSize outSize).calls =
      [{ off := outSize, declaredCap := inSize + blockLen,
         bufCap := xmlSecBufferGetMaxSize
           (xmlSecBufferSetMaxSize outB (outSize + 2 * blockLen)) }] := by
    unfold xmlSecGnuTLSBlockCipherFinalTail
    simp only [apply_ite PhaseOut.calls, ite_self]
  rw [hcalls] at hc
  simp only [List.mem_singleton] at hc
  subst hc
  simp only [maxSize_setMaxSize]
  omega

/-- C10: every call the Update and Final phases make to the provider
encrypt/decrypt declares an output region that lies inside the capacity
the phase reserved just before the call: the declared capacity is
inTake + blockLen at offset outSize against a reservation of at least
outSize + inTake + blockLen (Update), and inSize + blockLen with
inSize = blockLen at offset outSize against a reservation of at least
outSize + 2 * blockLen (Final). -/
theorem provider_calls_within_capacity :
    (∀ (ctx : XmlSecGnuTLSBlockCipherCtx) (inB outB : XmlSecBuffer) (encrypt : Bool)
        (c : ProviderCall),
        c ∈ (xmlSecGnuTLSBlockCipherCtxUpdate ctx inB outB encrypt).calls →
        c.off + c.declaredCap ≤ c.bufCap) ∧
    (∀ (ctx : XmlSecGnuTLSBlockCipherCtx) (inB outB : XmlSecBuffer) (encrypt : Bool)
        (padRand : List Nat) (c : ProviderCall),
        c ∈ (xmlSecGnuTLSBlockCipherCtxFinal ctx inB outB encrypt padRand).calls →
        c.off + c.declaredCap ≤ c.bufCap) := by
  constructor
  · intro ctx inB outB encrypt c hc
    unfold xmlSecGnuTLSBlockCipherCtxUpdate at hc
    cases hcc : ctx.cipher with
    | none =>
      rw [hcc] at hc
      simp [phaseErr] at hc
    | some alg =>
      cases hhh : ctx.cipherCtx with
      | none =>
        rw [hcc, hhh] at hc
        simp [phaseErr] at hc
      | some hd =>
        rw [hcc, hhh] at hc
        simp only [phaseErr, phaseOk] at hc
        repeat' split at hc
        all_goals
          first
            | (simp only [List.mem_singleton] at hc
               subst hc
               simp only [maxSize_setMaxSize]
               omega)
            | simp at hc
  · intro ctx inB outB encrypt padRand c hc
    unfold xmlSecGnuTLSBlockCipherCtxFinal at hc
    cases hcc : ctx.cipher with
    | none =>
      rw [hcc] at hc
      simp [phaseErr] at hc
    | some alg =>
      cases hhh : ctx.cipherCtx with
      | none =>
        rw [hcc, hhh] at hc
        simp [phaseErr] at hc
      | some hd =>
        rw [hcc, hhh] at hc
        simp only [phaseErr, phaseOk] at hc
        repeat' split at hc
        all_goals
          first
            | simp at hc
            | (rename_i hne
               exact finTail_call_bound _ _ _ _ _ _ _ _ _ (by omega) hc)
            | exact finTail_call_bound _ _ _ _ _ _ _ _ _ (Nat.le_refl _) hc

/-- Witness for C3: a concrete decrypting AES-128 transform with 3 input
bytes satisfies every hypothesis and shows the last call failing with
InvalidData while the non-last call succeeds. -/
theorem execute_decrypt_short_input_witness :
    (c3Transform.ctx.cipher = some GcryCipherAlg.aes128 ∧
     c3Transform.ctx.cipherCtx = some (idHd GcryCipherAlg.aes128) ∧
     c3Transform.ctx.keyInitialized = true ∧
     c3Transform.ctx.ctxInitialized = false ∧
     c3Transform.encode = false ∧
     c3Transform.inBuf.size < gcry_cipher_get_algo_blklen GcryCipherAlg.aes128 ∧
     c3Transform.status = xmlSecTransformStatusNone) ∧
    ((xmlSecGnuTLSBlockCipherExecute c3Transform true [] []).ret =
       Except.error XmlSecError.invalidData ∧
     (xmlSecGnuTLSBlockCipherExecute c3Transform false [] []).ret = Except.ok ()) :=
  ⟨⟨rfl, rfl, rfl, rfl, rfl, by decide, rfl⟩,
   execute_decrypt_short_input c3Transform [] [] GcryCipherAlg.aes128
     (idHd GcryCipherAlg.aes128) rfl rfl rfl rfl rfl (by decide) (Or.inl rfl)⟩

/-- Witness for C4: decrypting 17 bytes with AES-128 consumes one block
(16 bytes) into the output and keeps the trailing byte in the input. -/
theorem ctxUpdate_block_accounting_witness :
    ((readyCtx GcryCipherAlg.aes128).cipher = some GcryCipherAlg.aes128 ∧
     (readyCtx GcryCipherAlg.aes128).cipherCtx = some (idHd GcryCipherAlg.aes128) ∧
     (readyCtx GcryCipherAlg.aes128).ctxInitialized = true ∧
     gcry_cipher_get_algo_blklen GcryCipherAlg.aes128 ≤
       (bufOfList (List.replicate 17 5)).size) ∧
    ((xmlSecGnuTLSBlockCipherCtxUpdate (readyCtx GcryCipherAlg.aes128)
        (bufOfList (List.replicate 17 5)) emptyBuf false).ret = Except.ok () ∧
     (xmlSecGnuTLSBlockCipherCtxUpdate (readyCtx GcryCipherAlg.aes128)
        (bufOfList (List.replicate 17 5)) emptyBuf false).outBuf.size = 16 ∧
     (xmlSecGnuTLSBlockCipherCtxUpdate (readyCtx GcryCipherAlg.aes128)
        (bufOfList (List.replicate 17 5)) emptyBuf false).inBuf.size = 1) := by
  obtain ⟨h1, h2, h3, _⟩ := ctxUpdate_block_accounting (readyCtx GcryCipherAlg.aes128)
    (bufOfList (List.replicate 17 5)) emptyBuf false GcryCipherAlg.aes128
    (idHd GcryCipherAlg.aes128) rfl rfl rfl (by decide)
  exact ⟨⟨rfl, rfl, rfl, by decide⟩, h1, h2.trans (by decide), h3.trans (by decide)⟩

/-- Witness for C5: a decrypted block ending in the padding byte 3 is
accepted, 16 - 3 = 13 bytes are emitted and the input is emptied. -/
theorem ctxFinal_decrypt_padding_witness :
    (padThreeCtx.cipher = some GcryCipherAlg.aes128 ∧
     padThreeCtx.cipherCtx = some padThreeHd ∧
     padThreeCtx.ctxInitialized = true ∧
     (bufOfList (List.replicate 16 2)).size =
       gcry_cipher_get_algo_blklen GcryCipherAlg.aes128 ∧
     (gcry_cipher_decrypt padThreeHd
         ((bufOfList (List.replicate 16 2)).bytes.take 16)).1.getD 15 0 = 3) ∧
    ((xmlSecGnuTLSBlockCipherCtxFinal padThreeCtx (bufOfList (List.replicate 16 2))
        emptyBuf false []).ret = Except.ok () ∧
     (xmlSecGnuTLSBlockCipherCtxFinal padThreeCtx (bufOfList (List.replicate 16 2))
        emptyBuf false []).outBuf.size = 13 ∧
     (xmlSecGnuTLSBlockCipherCtxFinal padThreeCtx (bufOfList (List.replicate 16 2))
        emptyBuf false []).inBuf.size = 0) := by
  obtain ⟨hne, hsz⟩ := ctxFinal_decrypt_padding padThreeCtx
    (bufOfList (List.replicate 16 2)) emptyBuf [] GcryCipherAlg.aes128 padThreeHd
    rfl rfl rfl
  obtain ⟨hbig, hsmall⟩ := hsz (by decide)
  obtain ⟨ha, hb, hend⟩ := hsmall (by decide)
  exact ⟨⟨rfl, rfl, rfl, by decide, by decide⟩, ha, hb.trans (by decide), hend⟩

/-- Witness for C6 (amended): a concrete failing call entered in status
Working keeps its status. -/
theorem execute_failure_status_witness :
    (xmlSecGnuTLSBlockCipherExecute c6WorkingTransform true [] []).ret =
      Except.error XmlSecError.invalidData ∧
    ((xmlSecGnuTLSBlockCipherExecute c6WorkingTransform true [] []).t.status =
       c6WorkingTransform.status ∨
     (c6WorkingTransform.status = xmlSecTransformStatusNone ∧
      (xmlSecGnuTLSBlockCipherExecute c6WorkingTransform true [] []).t.status =
        xmlSecTransformStatusWorking)) :=
  ⟨rfl, execute_failure_status c6WorkingTransform true [] [] XmlSecError.invalidData rfl⟩

/-- Witness for C8: concrete buffers through the duplicated pair. -/
theorem final_duplicate_block_idempotent_witness :
    ((bufOfList [5]).size ≤ 2) ∧
    (xmlSecBufferSetSize (xmlSecBufferSetSize (bufOfList [1, 2]) 3) 3 =
       xmlSecBufferSetSize (bufOfList [1, 2]) 3 ∧
     xmlSecBufferRemoveHead (xmlSecBufferRemoveHead (bufOfList [5]) 2) 2 =
       xmlSecBufferRemoveHead (bufOfList [5]) 2 ∧
     (xmlSecBufferRemoveHead (bufOfList [5]) 2).size = 0 ∧
     (xmlSecBufferSetSize (bufOfList [1, 2]) 3).size = 3) :=
  ⟨by decide, final_duplicate_block_idempotent (bufOfList [1, 2]) (bufOfList [5]) 3 2 (by decide)⟩

/-- Witness for C9: a concrete working decrypting transform never returns
success on a last call, and a successful non-last call leaves the flag
false and the status short of Finished. -/
theorem execute_never_finishes_witness :
    ((xmlSecGnuTLSBlockCipherExecute c9Transform true [] []).ret ≠ Except.ok ()) ∧
    ((xmlSecGnuTLSBlockCipherExecute c9Transform false [] []).t.ctx.ctxInitialized = false ∧
     (xmlSecGnuTLSBlockCipherExecute c9Transform false [] []).t.status ≠
       xmlSecTransformStatusFinished) :=
  ⟨execute_never_finishes.1 c9Transform [] [] rfl (Or.inr rfl),
   execute_never_finishes.2 c9Transform false [] [] rfl (by decide) rfl⟩

/-- Witness for C10: the single provider call of a concrete Update and of
a concrete Final stays within the reserved capacity. -/
theorem provider_calls_within_capacity_witness :
    ((({ off := 0, declaredCap := 32, bufCap := 32 } : ProviderCall) ∈
        (xmlSecGnuTLSBlockCipherCtxUpdate (readyCtx GcryCipherAlg.aes128)
          (bufOfList (List.replicate 16 3)) emptyBuf true).calls) ∧
      0 + 32 ≤ 32) ∧
    ((({ off := 0, declaredCap := 32, bufCap := 32 } : ProviderCall) ∈
        (xmlSecGnuTLSBlockCipherCtxFinal (readyCtx GcryCipherAlg.aes128)
          (bufOfList (List.replicate 16 3)) emptyBuf false []).calls) ∧
      0 + 32 ≤ 32) :=
  ⟨⟨by decide, provider_calls_within_capacity.1 (readyCtx GcryCipherAlg.aes128)
      (bufOfList (List.replicate 16 3)) emptyBuf true
      { off := 0, declaredCap := 32, bufCap := 32 } (by decide)⟩,
   ⟨by decide, provider_calls_within_capacity.2 (readyCtx GcryCipherAlg.aes128)
      (bufOfList (List.replicate 16 3)) emptyBuf false []
      { off := 0, declaredCap := 32, bufCap := 32 } (by decide)⟩⟩
